import Mathlib

/-!
Verification of the NeuroNote study-app logic (src/src/App.jsx) against its
natural-language specification.  The JavaScript functions relevant to the
claims are shallowly embedded below: pure functions become Lean functions,
JavaScript numbers that hold integers become `Nat`/`Int`, score ratios
(JS floating-point division results) become `ℚ`, `DataView` byte stores
become explicit byte-array updates with the ECMAScript `ToUint8`/`ToUint16`/
`ToUint32` modular conversions, and promise rejection becomes `Except`.
-/

namespace NeuroNote

/-! ## Quiz data model (App.jsx: QuizModule, lines 1141-1176)

The generation schema (App.jsx lines 409-418) gives three question shapes:
multiple-choice `{question, options, correctIndex}`, fill-in-blank
`{sentence, answer}` (string answer) and true/false `{statement, answer}`
(boolean answer). -/

structure MCQuestion where
  question : String
  options : List String
  correctIndex : Nat
deriving Repr, DecidableEq

structure TFQuestion where
  statement : String
  answer : Bool
deriving Repr, DecidableEq

structure FIBQuestion where
  sentence : String
  answer : String
deriving Repr, DecidableEq

structure Quiz where
  multiple_choice : List MCQuestion
  true_false : List TFQuestion
  fill_in_blank : List FIBQuestion
deriving Repr, DecidableEq

/-- A question tagged with its type, as built by the `allQuestions` spread in
`QuizModule` (App.jsx lines 1146-1150): `{...q, type: 'mc' | 'tf' | 'fib'}`. -/
inductive Question where
  | mc (q : MCQuestion)
  | tf (q : TFQuestion)
  | fib (q : FIBQuestion)
deriving Repr, DecidableEq

/-- App.jsx lines 1146-1150: multiple-choice, then true/false, then
fill-in-blank, concatenated into one indexed list. -/
def allQuestions (quiz : Quiz) : List Question :=
  quiz.multiple_choice.map Question.mc ++
  quiz.true_false.map Question.tf ++
  quiz.fill_in_blank.map Question.fib

/-- A user answer value stored in the `answers` state object: an option index
(number) for multiple-choice, a boolean for true/false, free text for
fill-in-blank. -/
inductive JsValue where
  | num (n : Nat)
  | bool (b : Bool)
  | str (s : String)
deriving Repr, DecidableEq

/-- ECMAScript `String(v)` coercion for the answer values that can occur. -/
def jsString : JsValue → String
  | .num n => toString n
  | .bool b => if b then "true" else "false"
  | .str s => s

/-- The ASCII whitespace characters stripped by `String.prototype.trim`
(the Unicode space characters it also strips do not occur in this app's
ASCII-keyboard inputs). -/
def isJsWhitespace (c : Char) : Bool :=
  c == ' ' || c == '\t' || c == '\n' || c == '\r' ||
    c == '\x0b' || c == '\x0c'

/-- `String.prototype.trim`: remove leading and trailing whitespace. -/
def jsTrim (s : String) : String :=
  ⟨((s.data.dropWhile isJsWhitespace).reverse.dropWhile
      isJsWhitespace).reverse⟩

/-- `String.prototype.toLowerCase` on the ASCII range. -/
def jsToLowerChar (c : Char) : Char :=
  if 'A' ≤ c ∧ c ≤ 'Z' then Char.ofNat (c.toNat + 32) else c

def jsToLower (s : String) : String :=
  ⟨s.data.map jsToLowerChar⟩

/-- `String(x).trim().toLowerCase()`. -/
def normalizeAnswer (v : JsValue) : String :=
  jsToLower (jsTrim (jsString v))

/-- The per-question correctness test inside `calculateScore`
(App.jsx lines 1166-1173).  `===` on distinct runtime types is `false`. -/
def isCorrect (q : Question) (a : JsValue) : Bool :=
  match q, a with
  | .mc q, .num n => n == q.correctIndex
  | .mc _, _ => false
  | .tf q, .bool b => b == q.answer
  | .tf _, _ => false
  | .fib q, a => normalizeAnswer a == normalizeAnswer (.str q.answer)

/-- The `answers` state object: question index → answer, absent keys give
`undefined` (App.jsx line 1143). -/
def AnswerMap : Type := Nat → Option JsValue

/-- `calculateScore` (App.jsx lines 1161-1176): a `reduce` over the indexed
question list; an `undefined` answer leaves the accumulator unchanged. -/
def calculateScore (quiz : Quiz) (answers : AnswerMap) : Nat :=
  ((allQuestions quiz).enum).foldl
    (fun acc p =>
      match answers p.1 with
      | none => acc
      | some userAnswer => acc + (if isCorrect p.2 userAnswer then 1 else 0))
    0

/-! Spec-side grading rules, written from the claim's words, to be compared
with `calculateScore`.  A multiple-choice answer is correct iff the submitted
index equals `correctIndex`; a true/false answer is correct iff the submitted
boolean equals the question's answer; a fill-in-blank answer is correct iff
the submitted string equals the expected answer after trimming whitespace and
lowercasing both; a question with no entry in the map is never correct. -/

def specCorrect (q : Question) (a : JsValue) : Bool :=
  match q with
  | .mc q => a == JsValue.num q.correctIndex
  | .tf q => a == JsValue.bool q.answer
  | .fib q =>
    match a with
    | .str s => jsToLower (jsTrim s) == jsToLower (jsTrim q.answer)
    | _ => false

def specScore (quiz : Quiz) (answers : AnswerMap) : Nat :=
  ((allQuestions quiz).enum).countP
    (fun p =>
      match answers p.1 with
      | none => false
      | some a => specCorrect p.2 a)

/-- An answer map is well typed for a question list when every recorded
fill-in-blank answer is a string (which the text input in the quiz UI
guarantees). -/
def WellTypedAnswers (qs : List Question) (answers : AnswerMap) : Prop :=
  ∀ i q a, qs[i]? = some (Question.fib q) → answers i = some a →
    ∃ s, a = JsValue.str s

/-! ## Reward tier and profile bookkeeping (App.jsx lines 1180-1194, 212-217) -/

/-- The reward tier expression in `handleSubmitQuiz` (App.jsx line 1184):
`percentage > 0.8 ? 200 : percentage > 0.5 ? 100 : 50`. -/
def rewardXp (percentage : ℚ) : Nat :=
  if percentage > 8/10 then 200 else if percentage > 5/10 then 100 else 50

/-- User profile analytics sub-record (App.jsx lines 124-129). -/
structure Analytics where
  fc_learned : Nat
  quiz_attempts : Nat
  quiz_total_score : ℚ
deriving Repr, DecidableEq

/-- The per-user profile document (App.jsx lines 124-129, 196-201). -/
structure UserProfile where
  streak : Nat
  xp : Nat
  badges : List String
  analytics : Analytics
deriving Repr, DecidableEq

/-- A partial-field update as passed to Firestore `updateDoc`: dotted paths
(`analytics.quiz_attempts` etc.) address the nested analytics fields. -/
structure ProfileUpdates where
  xp : Option Nat := none
  streak : Option Nat := none
  badges : Option (List String) := none
  fc_learned : Option Nat := none
  quiz_attempts : Option Nat := none
  quiz_total_score : Option ℚ := none
deriving Repr, DecidableEq

/-- Effect of `updateDoc` on the stored profile: each named field is
replaced, every other field is untouched. -/
def applyUpdates (u : UserProfile) (upd : ProfileUpdates) : UserProfile :=
  { streak := upd.streak.getD u.streak
    xp := upd.xp.getD u.xp
    badges := upd.badges.getD u.badges
    analytics :=
      { fc_learned := upd.fc_learned.getD u.analytics.fc_learned
        quiz_attempts := upd.quiz_attempts.getD u.analytics.quiz_attempts
        quiz_total_score := upd.quiz_total_score.getD u.analytics.quiz_total_score } }

/-- First `updateUserData` call in `handleSubmitQuiz` (App.jsx lines
1186-1190): xp, quiz attempts and cumulative quiz score, all computed from
the current snapshot `userData`. -/
def quizSubmitUpdate1 (userData : UserProfile) (score totalQuestions : Nat) :
    ProfileUpdates :=
  let percentage : ℚ := (score : ℚ) / (totalQuestions : ℚ)
  { xp := some (userData.xp + rewardXp percentage)
    quiz_attempts := some (userData.analytics.quiz_attempts + 1)
    quiz_total_score := some (userData.analytics.quiz_total_score + percentage) }

/-- Second `updateUserData` call in `handleSubmitQuiz` (App.jsx line 1193):
the streak increment. -/
def quizSubmitUpdate2 (userData : UserProfile) : ProfileUpdates :=
  { streak := some (userData.streak + 1) }

/-- The remote profile after both updates issued by `handleSubmitQuiz` have
been applied to a store that held `userData`. -/
def handleSubmitQuizRemote (userData : UserProfile) (score totalQuestions : Nat) :
    UserProfile :=
  applyUpdates (applyUpdates userData (quizSubmitUpdate1 userData score totalQuestions))
    (quizSubmitUpdate2 userData)

/-! ## Retry wrapper (App.jsx lines 17, 96-114) -/

/-- App.jsx line 17. -/
def MAX_RETRIES : Nat := 5

/-- `shouldRetry` (App.jsx line 96). -/
def shouldRetry (status : Nat) : Bool :=
  status == 429 || status == 500 || status == 503

/-- `Response.ok` per the Fetch standard: status in the range 200-299. -/
def responseOk (status : Nat) : Bool :=
  200 ≤ status && status < 300

/-- Outcome of one `fetch(url, options)` call: a resolved response carrying a
status, or a thrown network failure (identified by an error value). -/
inductive FetchOutcome where
  | resp (status : Nat)
  | err (e : Nat)
deriving Repr, DecidableEq

/-- Each run of `fetchWithBackoff` is deterministic once the environment is
fixed: `oracle n` is what the `fetch` on attempt `n` does, and `jitter n` is
the value of `Math.random() * 500` drawn when scheduling the delay after
attempt `n`. -/
def backoffDelay (retries : Nat) (jitter : Nat → ℚ) : ℚ :=
  2 ^ retries * 1000 + jitter retries

/-- `fetchWithBackoff` (App.jsx lines 97-114), returning the final result
(`Except` models the promise rejecting with the thrown error) together with
the list of delays awaited before each retry, in order.  The retry condition
on a response is `!response.ok && shouldRetry(status) && retries < MAX_RETRIES`
(line 100); a thrown fetch retries whenever `retries < MAX_RETRIES`
(line 107), otherwise the error is re-thrown (line 112). -/
def fetchWithBackoff (oracle : Nat → FetchOutcome) (jitter : Nat → ℚ)
    (retries : Nat) : Except Nat Nat × List ℚ :=
  match oracle retries with
  | .resp status =>
    if h : responseOk status = false ∧ shouldRetry status = true ∧
        retries < MAX_RETRIES then
      let rest := fetchWithBackoff oracle jitter (retries + 1)
      (rest.1, backoffDelay retries jitter :: rest.2)
    else
      (.ok status, [])
  | .err e =>
    if h : retries < MAX_RETRIES then
      let rest := fetchWithBackoff oracle jitter (retries + 1)
      (rest.1, backoffDelay retries jitter :: rest.2)
    else
      (.error e, [])
termination_by MAX_RETRIES + 1 - retries
decreasing_by
  · omega
  · omega

/-- An attempt outcome triggers a retry (limit permitting) exactly when the
fetch threw, or the response has a retryable status. -/
def retryable : FetchOutcome → Bool
  | .resp status => !responseOk status && shouldRetry status
  | .err _ => true

/-- The value `fetchWithBackoff` produces from the outcome it stops at. -/
def toResult : FetchOutcome → Except Nat Nat
  | .resp status => .ok status
  | .err e => .error e

/-! ## WAV container construction (App.jsx lines 67-95)

The `ArrayBuffer`/`DataView` pair is modelled as an array of bytes
(zero-initialised, as an `ArrayBuffer` is).  Little-endian stores perform the
ECMAScript `ToUint8`/`ToUint16`/`ToUint32`(/`ToInt16`) conversions, i.e. the
stored bytes are the value reduced mod 2^8 / 2^16 / 2^32. -/

/-- `view.setUint8(i, v)`: store `v mod 256`; out-of-range stores are absent
from the source (the buffer is sized up front), and `setD` leaves the array
unchanged there. -/
def setByte (buf : Array Nat) (i : Nat) (v : Nat) : Array Nat :=
  buf.setD i (v % 256)

/-- `view.setUint16(off, v, true)`: `v mod 2^16`, little-endian. -/
def setUint16LE (buf : Array Nat) (off : Nat) (v : Nat) : Array Nat :=
  setByte (setByte buf off v) (off + 1) (v / 256 % 256)

/-- `view.setUint32(off, v, true)`: `v mod 2^32`, little-endian. -/
def setUint32LE (buf : Array Nat) (off : Nat) (v : Nat) : Array Nat :=
  setByte (setByte (setByte (setByte buf off v) (off + 1) (v / 256 % 256))
    (off + 2) (v / 65536 % 256)) (off + 3) (v / 16777216 % 256)

/-- `ToInt16`-then-store: the stored 16-bit pattern of an integer sample is
its value mod 2^16 (two's complement). -/
def setInt16LE (buf : Array Nat) (off : Nat) (v : Int) : Array Nat :=
  setUint16LE buf off ((v % 65536).toNat)

/-- `writeString` (App.jsx lines 67-71): one `setUint8` per character. -/
def writeString (buf : Array Nat) (off : Nat) (s : String) : Array Nat :=
  (s.data.enum).foldl (fun b p => setByte b (off + p.1) p.2.toNat) buf

/-- The sample loop of `pcmToWav` (App.jsx lines 90-93): `offset` starts at
44 and advances by 2 per sample. -/
def writeSamples (buf : Array Nat) (off : Nat) : List Int → Array Nat
  | [] => buf
  | s :: rest => writeSamples (setInt16LE buf off s) (off + 2) rest

/-- `pcmToWav` (App.jsx lines 72-95) as the byte content of the produced
`audio/wav` blob. -/
def pcmToWav (pcm16Data : List Int) (sampleRate : Nat) : Array Nat :=
  let numChannels := 1
  let bytesPerSample := 2
  let buf := Array.mkArray (44 + pcm16Data.length * bytesPerSample) 0
  let buf := writeString buf 0 "RIFF"
  let buf := setUint32LE buf 4 (36 + pcm16Data.length * bytesPerSample)
  let buf := writeString buf 8 "WAVE"
  let buf := writeString buf 12 "fmt "
  let buf := setUint32LE buf 16 16
  let buf := setUint16LE buf 20 1
  let buf := setUint16LE buf 22 numChannels
  let buf := setUint32LE buf 24 sampleRate
  let buf := setUint32LE buf 28 (sampleRate * numChannels * bytesPerSample)
  let buf := setUint16LE buf 32 (numChannels * bytesPerSample)
  let buf := setUint16LE buf 34 16
  let buf := writeString buf 36 "data"
  let buf := setUint32LE buf 40 (pcm16Data.length * bytesPerSample)
  writeSamples buf 44 pcm16Data

/-- Read one byte back (0 outside the buffer). -/
def getByte (buf : Array Nat) (i : Nat) : Nat :=
  buf.getD i 0

/-- Value of a little-endian 16-bit field. -/
def readUint16LE (buf : Array Nat) (off : Nat) : Nat :=
  getByte buf off + 256 * getByte buf (off + 1)

/-- Value of a little-endian 32-bit field. -/
def readUint32LE (buf : Array Nat) (off : Nat) : Nat :=
  getByte buf off + 256 * getByte buf (off + 1) +
    65536 * getByte buf (off + 2) + 16777216 * getByte buf (off + 3)

/-! ## Busy-flag guards on the two request handlers
(App.jsx lines 256-273, 358-368) and the input-view render condition
(App.jsx line 526). -/

/-- What the entry of `generateTts` does before any request is issued. -/
inductive TtsAction where
  | abort
  | stopPlayback
  | issueRequest
deriving Repr, DecidableEq

/-- Entry of `generateTts` (App.jsx lines 257-273): the guard
`if (!apiKey || isTtsLoading || !textToSpeak) return;` (line 258), then the
stop-playback branch when `ttsAudioUrl` is set (lines 264-271), then the
request is issued. -/
def generateTtsAction (apiKey : String) (isTtsLoading : Bool)
    (textToSpeak : String) (ttsAudioUrl : Option String) : TtsAction :=
  if apiKey = "" ∨ isTtsLoading = true ∨ textToSpeak = "" then
    .abort
  else if ttsAudioUrl.isSome then
    .stopPlayback
  else
    .issueRequest

/-- What the entry of `generateStudyPack` does. -/
inductive GenAction where
  | abortNoInput
  | issueRequest
deriving Repr, DecidableEq

set_option linter.unusedVariables false in
/-- Entry of `generateStudyPack` (App.jsx lines 358-368): the only guard is
`if (!inputText && uploadedFiles.length === 0)` (line 359).  The `loading`
flag is in scope for the handler but is never read by it; it is a parameter
here so that invoking the handler while `loading` is true can be expressed. -/
def generateStudyPackAction (loading : Bool) (inputText : String)
    (uploadedFilesCount : Nat) : GenAction :=
  if inputText = "" ∧ uploadedFilesCount = 0 then
    .abortNoInput
  else
    .issueRequest

/-- Render condition of the input section holding the generate button
(App.jsx line 526): `activeTab === 'input' && !loading`. -/
def inputSectionVisible (activeTab : String) (loading : Bool) : Bool :=
  activeTab == "input" && !loading

/-! ## Remote-store write wrapper (App.jsx lines 212-217) -/

/-- `console.error(label, e)` as the list of emitted log lines. -/
def consoleError (label : String) (e : String) : List String :=
  [label ++ " " ++ e]

/-- `updateUserData` (App.jsx lines 212-217): a missing `db` or `userId`
returns without writing; otherwise `updateDoc(...).catch(e => console.error
("Failed to update user data:", e))` is issued.  The first component is the
settled state of the resulting promise chain (`.error` would mean an
unhandled rejection reaching the caller); the second is the console log. -/
def updateUserData (hasDb hasUserId : Bool)
    (writeResult : Except String Unit) : Except String Unit × List String :=
  if hasDb = false ∨ hasUserId = false then
    (.ok (), [])
  else
    match writeResult with
    | .ok _ => (.ok (), [])
    | .error e => (.ok (), consoleError "Failed to update user data:" e)

/-! ## Memory-hacks view (App.jsx lines 1113-1139) -/

/-- A mnemonic record (generation schema, App.jsx lines 405-408). -/
structure Mnemonic where
  type : String
  content : String
  explanation : String
  emoji : String
deriving Repr, DecidableEq

/-- The children rendered by `MemoryHacksModule`, abstracted to which
element each is. -/
inductive RNode where
  | hackCard (hack : Mnemonic)
  | emptyState (message : String)
deriving Repr, DecidableEq

/-- App.jsx line 1134. -/
def noMnemonicsMessage : String :=
  "No specific mnemonics were generated for this material."

/-- `MemoryHacksModule` (App.jsx lines 1119-1137): one card per mnemonic via
`map` (line 1121), and the conditional `{mnemonics.length === 0 && <div>…}`
(lines 1132-1136) mounting the empty-state element. -/
def memoryHacksChildren (mnemonics : List Mnemonic) : List RNode :=
  mnemonics.map RNode.hackCard ++
    (if mnemonics.length = 0 then [RNode.emptyState noMnemonicsMessage] else [])

/-! ## Flashcard deck index (App.jsx lines 1035-1061) -/

/-- `handleNext` (App.jsx line 1046): `(currentIndex + 1) % cards.length`. -/
def handleNext (numCards idx : Nat) : Nat :=
  (idx + 1) % numCards

/-- `handlePrev` (App.jsx line 1060):
`(prev - 1 + cards.length) % cards.length`, computed in ℤ as JS does. -/
def handlePrev (numCards idx : Nat) : Nat :=
  (((idx : Int) - 1 + numCards) % (numCards : Int)).toNat

/-- One navigation action on the deck. -/
inductive DeckOp where
  | next
  | prev
deriving Repr, DecidableEq

def deckStep (numCards : Nat) (idx : Nat) : DeckOp → Nat
  | .next => handleNext numCards idx
  | .prev => handlePrev numCards idx

/-- The current index after a sequence of navigation clicks, starting from
the initial state `useState(0)` (App.jsx line 1036). -/
def runDeck (numCards : Nat) (ops : List DeckOp) : Nat :=
  ops.foldl (deckStep numCards) 0

/-! ## Proof infrastructure and witness fixtures -/

/-- A sequence of byte stores applied in order (used to reason about the
header stores of `pcmToWav`). -/
def applyWrites (buf : Array Nat) (ws : List (Nat × Nat)) : Array Nat :=
  ws.foldl (fun b w => setByte b w.1 w.2) buf

/-- The 44 header byte stores performed by `pcmToWav` before the sample
loop, in source order, with each `setUint16`/`setUint32` little-endian
store listed byte by byte (`len` is the sample count, `r` the sample
rate). -/
def headerWrites (len r : Nat) : List (Nat × Nat) :=
  [(0, 82), (1, 73), (2, 70), (3, 70),
   (4, 36 + len * 2), (5, (36 + len * 2) / 256 % 256),
   (6, (36 + len * 2) / 65536 % 256), (7, (36 + len * 2) / 16777216 % 256),
   (8, 87), (9, 65), (10, 86), (11, 69),
   (12, 102), (13, 109), (14, 116), (15, 32),
   (16, 16), (17, 0), (18, 0), (19, 0),
   (20, 1), (21, 0),
   (22, 1), (23, 0),
   (24, r), (25, r / 256 % 256), (26, r / 65536 % 256),
   (27, r / 16777216 % 256),
   (28, r * 1 * 2), (29, r * 1 * 2 / 256 % 256),
   (30, r * 1 * 2 / 65536 % 256), (31, r * 1 * 2 / 16777216 % 256),
   (32, 2), (33, 0),
   (34, 16), (35, 0),
   (36, 100), (37, 97), (38, 116), (39, 97),
   (40, len * 2), (41, len * 2 / 256 % 256),
   (42, len * 2 / 65536 % 256), (43, len * 2 / 16777216 % 256)]

/-- A one-question-per-type quiz for the C1 witness; the fill-in-blank
expected answer is `"paris"`. -/
def c1WitnessQuiz : Quiz :=
  { multiple_choice := [{ question := "q", options := ["a", "b", "c"],
                          correctIndex := 2 }]
    true_false := [{ statement := "s", answer := true }]
    fill_in_blank := [{ sentence := "The capital of France is [___].",
                        answer := "paris" }] }

/-- Answer map for the C1 witness: only the fill-in-blank question (index 2)
is answered, with the submitted text `"Paris "`. -/
def c1WitnessAnswers : AnswerMap :=
  fun i => if i = 2 then some (JsValue.str "Paris ") else none

/-! ## Theorems -/

/-- C4: The quiz reward-tier function (200 for ratio above 0.8, 100 for
ratio above 0.5, otherwise 50) is monotone non-decreasing: a score ratio at
least as large never earns strictly less XP. -/
theorem rewardXp_monotone (p₁ p₂ : ℚ) (h : p₂ ≤ p₁) :
    rewardXp p₂ ≤ rewardXp p₁ := by
  unfold rewardXp
  split_ifs <;> first | omega | (exfalso; linarith)

/-- Witness for C4 at the concrete ratios 1 and 0. -/
theorem rewardXp_monotone_witness :
    (0 : ℚ) ≤ 1 ∧ rewardXp 0 ≤ rewardXp 1 :=
  ⟨by norm_num, rewardXp_monotone 1 0 (by norm_num)⟩

set_option linter.unusedVariables false in
/-- C5: On quiz submission the updates issued to the remote store, applied
in order, add the tier reward to `xp`, add 1 to `analytics.quiz_attempts`,
add the score ratio to `analytics.quiz_total_score`, add 1 to `streak`, and
leave `badges` and `analytics.fc_learned` unchanged. -/
theorem handleSubmitQuizRemote_effect (u : UserProfile) (score total : Nat)
    (h : 0 < total) :
    handleSubmitQuizRemote u score total =
      { streak := u.streak + 1
        xp := u.xp + rewardXp ((score : ℚ) / (total : ℚ))
        badges := u.badges
        analytics :=
          { fc_learned := u.analytics.fc_learned
            quiz_attempts := u.analytics.quiz_attempts + 1
            quiz_total_score :=
              u.analytics.quiz_total_score + (score : ℚ) / (total : ℚ) } } := by
  rfl

/-- Witness for C5: a profile submitting 4 of 5 correct gains 100 XP (the
middle tier), one attempt, ratio 4/5, and one streak point. -/
theorem handleSubmitQuizRemote_effect_witness :
    0 < 5 ∧
    handleSubmitQuizRemote
        { streak := 2, xp := 300, badges := ["Starter"],
          analytics := { fc_learned := 10, quiz_attempts := 1,
                         quiz_total_score := 1/2 } } 4 5 =
      { streak := 3
        xp := 300 + rewardXp ((4 : ℚ) / (5 : ℚ))
        badges := ["Starter"]
        analytics := { fc_learned := 10, quiz_attempts := 2,
                       quiz_total_score := 1/2 + (4 : ℚ) / (5 : ℚ) } } :=
  ⟨by decide,
   handleSubmitQuizRemote_effect
     { streak := 2, xp := 300, badges := ["Starter"],
       analytics := { fc_learned := 10, quiz_attempts := 1,
                      quiz_total_score := 1/2 } } 4 5 (by decide)⟩

/-- C6 counterexample: invoking the study-pack generation handler while its
busy flag `loading` is true, with non-empty input text, still issues a
generation request — the handler never consults `loading` (App.jsx lines
358-368 contain no such guard). -/
theorem generateStudyPack_ignores_loading :
    generateStudyPackAction true "hello" 0 = GenAction.issueRequest := by
  rfl

/-- C6 amended: the speech handler issues no request while `isTtsLoading` is
true (it returns at the guard on App.jsx line 258); the generation handler
itself does not check `loading`, and re-entry is instead prevented by the UI
rendering the input section — and with it the generate button — only while
`loading` is false (App.jsx line 526). -/
theorem busy_flag_guards (apiKey text : String) (url : Option String)
    (tab : String) :
    generateTtsAction apiKey true text url = TtsAction.abort ∧
    inputSectionVisible tab true = false := by
  constructor
  · unfold generateTtsAction
    rw [if_pos (Or.inr (Or.inl rfl))]
  · simp [inputSectionVisible]

/-- Full behaviour of `fetchWithBackoff` from any starting attempt count
`retries ≤ MAX_RETRIES`: it stops at the first non-retryable outcome, or at
attempt `MAX_RETRIES`, whichever comes first, returns that outcome, and
awaits `2^i * 1000 + jitter i` milliseconds after each retried attempt `i`. -/
theorem fetchWithBackoff_characterize (oracle : Nat → FetchOutcome)
    (jitter : Nat → ℚ) (retries : Nat) (h : retries ≤ MAX_RETRIES) :
    ∃ k, retries ≤ k ∧ k ≤ MAX_RETRIES ∧
      (∀ i, retries ≤ i → i < k → retryable (oracle i) = true) ∧
      (k < MAX_RETRIES → retryable (oracle k) = false) ∧
      fetchWithBackoff oracle jitter retries =
        (toResult (oracle k),
         (List.range' retries (k - retries)).map
           (fun i => backoffDelay i jitter)) := by
  rw [fetchWithBackoff.eq_def]
  cases ho : oracle retries with
  | resp status =>
    dsimp only
    by_cases hc : responseOk status = false ∧ shouldRetry status = true ∧
        retries < MAX_RETRIES
    · rw [dif_pos hc]
      obtain ⟨k, hk1, hk2, hall, hstop, heq⟩ :=
        fetchWithBackoff_characterize oracle jitter (retries + 1) (by omega)
      refine ⟨k, by omega, hk2, ?_, hstop, ?_⟩
      · intro i hi1 hi2
        rcases Nat.eq_or_lt_of_le hi1 with rfl | hlt
        · simp [retryable, ho, hc.1, hc.2.1]
        · exact hall i (by omega) hi2
      · rw [heq]
        have hk : k - retries = (k - (retries + 1)) + 1 := by omega
        rw [hk, List.range'_succ, List.map_cons]
    · rw [dif_neg hc]
      refine ⟨retries, le_refl _, h, by omega, ?_, ?_⟩
      · intro hlt
        simp only [retryable, ho]
        rcases h1 : responseOk status with _ | _ <;>
          rcases h2 : shouldRetry status with _ | _ <;> simp_all
      · simp [ho, toResult]
  | err e =>
    dsimp only
    by_cases hc : retries < MAX_RETRIES
    · rw [dif_pos hc]
      obtain ⟨k, hk1, hk2, hall, hstop, heq⟩ :=
        fetchWithBackoff_characterize oracle jitter (retries + 1) (by omega)
      refine ⟨k, by omega, hk2, ?_, hstop, ?_⟩
      · intro i hi1 hi2
        rcases Nat.eq_or_lt_of_le hi1 with rfl | hlt
        · simp [retryable, ho]
        · exact hall i (by omega) hi2
      · rw [heq]
        have hk : k - retries = (k - (retries + 1)) + 1 := by omega
        rw [hk, List.range'_succ, List.map_cons]
    · rw [dif_neg hc]
      refine ⟨retries, le_refl _, h, by omega, by omega, ?_⟩
      simp [ho, toResult]
termination_by MAX_RETRIES + 1 - retries

/-- C2: a call to `fetchWithBackoff` retries only past outcomes that threw
or carried status 429, 500 or 503; there are at most `MAX_RETRIES = 5`
retries; stopping before the limit happens only at a non-retryable outcome;
the returned value is the response (or thrown error) of the attempt it
stopped at — in particular the first response when that one is already
non-retryable, and the last outcome once the limit is exhausted — and the
delay awaited before retry `i + 1` is `2^i * 1000` milliseconds plus the
jitter drawn for attempt `i`. -/
theorem fetchWithBackoff_behavior (oracle : Nat → FetchOutcome)
    (jitter : Nat → ℚ) :
    MAX_RETRIES = 5 ∧
    ∃ k, k ≤ MAX_RETRIES ∧
      (∀ i, i < k → retryable (oracle i) = true) ∧
      (k < MAX_RETRIES → retryable (oracle k) = false) ∧
      fetchWithBackoff oracle jitter 0 =
        (toResult (oracle k),
         (List.range k).map (fun i => backoffDelay i jitter)) := by
  refine ⟨rfl, ?_⟩
  obtain ⟨k, _, hk2, hall, hstop, heq⟩ :=
    fetchWithBackoff_characterize oracle jitter 0 (by omega)
  refine ⟨k, hk2, fun i hi => hall i (Nat.zero_le i) hi, hstop, ?_⟩
  simpa [List.range_eq_range'] using heq

/-- C3: with every jitter draw in `[0, 500)` (the range of
`Math.random() * 500`), the delay sequence of one `fetchWithBackoff` call is
non-decreasing, and the number of delays (= retries) is at most
`MAX_RETRIES`. -/
theorem backoffDelays_monotone (oracle : Nat → FetchOutcome)
    (jitter : Nat → ℚ) (hj : ∀ i, 0 ≤ jitter i ∧ jitter i < 500) :
    ((fetchWithBackoff oracle jitter 0).2).Chain' (· ≤ ·) ∧
    (fetchWithBackoff oracle jitter 0).2.length ≤ MAX_RETRIES := by
  obtain ⟨k, _, hk2, _, _, heq⟩ :=
    fetchWithBackoff_characterize oracle jitter 0 (by omega)
  rw [heq]
  constructor
  · have hmono : StrictMono (fun i => backoffDelay i jitter) := by
      apply strictMono_nat_of_lt_succ
      intro n
      have h1 := (hj n).2
      have h2 := (hj (n + 1)).1
      have hp : (1 : ℚ) ≤ 2 ^ n := one_le_pow₀ (by norm_num)
      simp only [backoffDelay]
      have hpow : (2 : ℚ) ^ n * 1000 + 500 ≤ (2 : ℚ) ^ (n + 1) * 1000 := by
        have h3 : (2 : ℚ) ^ (n + 1) = 2 * 2 ^ n := by ring
        rw [h3]
        nlinarith
      linarith
    apply List.Pairwise.chain'
    rw [List.pairwise_map]
    have hr : List.range' 0 (k - 0) = List.range k := by
      rw [List.range_eq_range', Nat.sub_zero]
    rw [hr]
    exact (List.pairwise_lt_range _).imp (fun hij => (hmono hij).le)
  · simp [hk2]

/-- Witness for C3: a permanently failing fetch with zero jitter retries 5
times with the non-decreasing delays 1000, 2000, 4000, 8000, 16000. -/
theorem backoffDelays_monotone_witness :
    (∀ i : Nat, 0 ≤ (fun _ : Nat => (0 : ℚ)) i ∧
        (fun _ : Nat => (0 : ℚ)) i < 500) ∧
    (((fetchWithBackoff (fun _ => FetchOutcome.err 0)
        (fun _ : Nat => (0 : ℚ)) 0).2).Chain' (· ≤ ·) ∧
      (fetchWithBackoff (fun _ => FetchOutcome.err 0)
        (fun _ : Nat => (0 : ℚ)) 0).2.length ≤ MAX_RETRIES) :=
  ⟨fun i => ⟨le_refl 0, by norm_num⟩,
   backoffDelays_monotone (fun _ => FetchOutcome.err 0) (fun _ => (0 : ℚ))
     (fun i => ⟨le_refl 0, by norm_num⟩)⟩

/-- C7: `updateUserData` never surfaces a write failure: the promise chain
always settles successfully (so nothing is propagated to the caller, and no
error state or other local state is touched — the function's only outputs
are the settled promise and the console log), and a failed write is logged
with the `"Failed to update user data:"` prefix. -/
theorem updateUserData_swallows_failures (hasDb hasUserId : Bool)
    (w : Except String Unit) (e : String) :
    (updateUserData hasDb hasUserId w).1 = Except.ok () ∧
    (updateUserData true true (Except.error e)).2 =
      ["Failed to update user data: " ++ e] := by
  constructor
  · unfold updateUserData
    split
    · rfl
    · cases w <;> rfl
  · rfl

/-- C8: the memory-hacks view never renders an empty child list, and it
renders the explicit empty-state element ("No specific mnemonics were
generated for this material.") exactly when the mnemonics list is empty. -/
theorem memoryHacks_empty_state (mnemonics : List Mnemonic) :
    0 < (memoryHacksChildren mnemonics).length ∧
    (RNode.emptyState noMnemonicsMessage ∈ memoryHacksChildren mnemonics ↔
      mnemonics = []) := by
  constructor
  · cases mnemonics <;> simp [memoryHacksChildren]
  · cases mnemonics <;> simp [memoryHacksChildren]

/-- `countP` only depends on the predicate's values on the list. -/
theorem countP_congr_local (l : List (Nat × Question))
    (p q : Nat × Question → Bool) (h : ∀ a ∈ l, p a = q a) :
    l.countP p = l.countP q := by
  induction l with
  | nil => rfl
  | cons x xs ih =>
    rw [List.countP_cons, List.countP_cons, h x (by simp),
      ih (fun a ha => h a (by simp [ha]))]

/-- The per-question test in `calculateScore` agrees with the claim's
per-type equality rules whenever a fill-in-blank answer is a string (for a
string answer the `String(...)` coercion in the source is the identity). -/
theorem isCorrect_eq_specCorrect (q : Question) (a : JsValue)
    (h : ∀ f, q = Question.fib f → ∃ s, a = JsValue.str s) :
    isCorrect q a = specCorrect q a := by
  cases q with
  | mc q =>
    cases a with
    | num n =>
      by_cases hn : n = q.correctIndex
      · subst hn; simp [isCorrect, specCorrect]
      · simp [isCorrect, specCorrect, hn]
    | bool b => simp [isCorrect, specCorrect]
    | str s => simp [isCorrect, specCorrect]
  | tf q =>
    cases a with
    | num n => simp [isCorrect, specCorrect]
    | bool b =>
      by_cases hb : b = q.answer
      · subst hb; simp [isCorrect, specCorrect]
      · simp [isCorrect, specCorrect, hb]
    | str s => simp [isCorrect, specCorrect]
  | fib q =>
    obtain ⟨s, rfl⟩ := h q rfl
    rfl

/-- A left fold adding 0/1 per element counts the elements satisfying the
predicate. -/
theorem foldl_add_count {α : Type} (g : α → Bool) (l : List α) :
    ∀ acc : Nat,
      l.foldl (fun acc p => acc + (if g p then 1 else 0)) acc =
        acc + l.countP g := by
  induction l with
  | nil => simp
  | cons x xs ih =>
    intro acc
    rw [List.foldl_cons, ih, List.countP_cons]
    by_cases hx : g x
    · simp [hx]; omega
    · simp [hx]

/-- C1: for every quiz and answer map whose fill-in-blank entries are
strings (as the quiz UI guarantees), `calculateScore` returns the number of
questions with a recorded answer satisfying the claim's per-type rule:
index equality for multiple-choice, boolean equality for true/false,
trimmed lowercased string equality for fill-in-blank; an unanswered
question is never counted. -/
theorem calculateScore_eq_specScore (quiz : Quiz) (answers : AnswerMap)
    (hw : WellTypedAnswers (allQuestions quiz) answers) :
    calculateScore quiz answers = specScore quiz answers := by
  unfold calculateScore specScore
  have hF : (fun (acc : Nat) (p : Nat × Question) =>
      match answers p.1 with
      | none => acc
      | some userAnswer => acc + (if isCorrect p.2 userAnswer then 1 else 0)) =
      (fun (acc : Nat) (p : Nat × Question) =>
        acc + (if (match answers p.1 with
                   | none => false
                   | some a => isCorrect p.2 a) then 1 else 0)) := by
    funext acc p
    cases hap : answers p.1 <;> simp
  rw [hF, foldl_add_count, Nat.zero_add]
  apply countP_congr_local
  intro p hp
  obtain ⟨i, qq⟩ := p
  have hget : (allQuestions quiz)[i]? = some qq :=
    List.mk_mem_enum_iff_getElem?.mp hp
  cases hap : answers i with
  | none => simp [hap]
  | some a =>
    simp only [hap]
    exact isCorrect_eq_specCorrect qq a (fun f hf => hw i f a (hf ▸ hget) hap)

/-- Witness for C1: submitted `"Paris "` matches expected `"paris"`, the two
unanswered questions count nothing, and the code's score agrees with the
claim's count (both 1). -/
theorem calculateScore_eq_specScore_witness :
    WellTypedAnswers (allQuestions c1WitnessQuiz) c1WitnessAnswers ∧
    calculateScore c1WitnessQuiz c1WitnessAnswers =
      specScore c1WitnessQuiz c1WitnessAnswers ∧
    calculateScore c1WitnessQuiz c1WitnessAnswers = 1 := by
  have hw : WellTypedAnswers (allQuestions c1WitnessQuiz) c1WitnessAnswers := by
    intro i q a hq ha
    by_cases h2 : i = 2
    · subst h2
      rw [show c1WitnessAnswers 2 = some (JsValue.str "Paris ") from rfl] at ha
      exact ⟨"Paris ", (Option.some.inj ha).symm⟩
    · simp [c1WitnessAnswers, h2] at ha
  exact ⟨hw, calculateScore_eq_specScore c1WitnessQuiz c1WitnessAnswers hw,
    by decide⟩

/-- Bound for a single deck navigation step. -/
theorem deckStep_lt (numCards idx : Nat) (h : 0 < numCards) (op : DeckOp) :
    deckStep numCards idx op < numCards := by
  cases op
  · exact Nat.mod_lt _ h
  · simp only [deckStep, handlePrev]
    have h1 := Int.emod_nonneg ((idx : Int) - 1 + numCards)
      (by omega : (numCards : Int) ≠ 0)
    have h2 := Int.emod_lt_of_pos ((idx : Int) - 1 + numCards)
      (by omega : 0 < (numCards : Int))
    omega

/-- Any click sequence keeps the index below the card count. -/
theorem foldl_deckStep_lt (numCards : Nat) (h : 0 < numCards)
    (ops : List DeckOp) :
    ∀ idx, idx < numCards → ops.foldl (deckStep numCards) idx < numCards := by
  induction ops with
  | nil => intro idx hidx; simpa using hidx
  | cons op rest ih => intro idx hidx; exact ih _ (deckStep_lt _ _ h op)

/-- `handlePrev` moves back one card, wrapping the first card to the last. -/
theorem handlePrev_eq (numCards idx : Nat) (h0 : 0 < numCards)
    (hidx : idx < numCards) :
    handlePrev numCards idx = if idx = 0 then numCards - 1 else idx - 1 := by
  unfold handlePrev
  rcases Nat.eq_zero_or_pos idx with rfl | hpos
  · rw [if_pos rfl]
    have h1 : (((0 : Nat) : Int) - 1 + (numCards : Int)) % (numCards : Int) =
        (numCards : Int) - 1 := by
      have h2 : ((0 : Nat) : Int) - 1 + (numCards : Int) =
          (numCards : Int) - 1 := by push_cast; ring
      rw [h2, Int.emod_eq_of_lt (by omega) (by omega)]
    rw [h1]
    omega
  · rw [if_neg (by omega)]
    have h1 : ((idx : Int) - 1 + (numCards : Int)) % (numCards : Int) =
        (idx : Int) - 1 := by
      have h2 : (idx : Int) - 1 + (numCards : Int) =
          ((idx : Int) - 1) + (numCards : Int) * 1 := by ring
      rw [h2, Int.add_mul_emod_self_left,
        Int.emod_eq_of_lt (by omega) (by omega)]
    rw [h1]
    omega

/-- C10: starting from index 0, every sequence of next/prev clicks keeps the
flashcard index in `[0, cards.length)`; `handleNext` advances by one and
wraps the last card to the first; `handlePrev` moves back by one and wraps
the first card to the last. -/
theorem flashcardDeck_index_invariant (numCards : Nat) (h : 0 < numCards)
    (ops : List DeckOp) :
    runDeck numCards ops < numCards ∧
    (∀ idx, idx < numCards →
      handleNext numCards idx = if idx = numCards - 1 then 0 else idx + 1) ∧
    (∀ idx, idx < numCards →
      handlePrev numCards idx = if idx = 0 then numCards - 1 else idx - 1) := by
  refine ⟨foldl_deckStep_lt numCards h ops 0 h, ?_, ?_⟩
  · intro idx hidx
    unfold handleNext
    rcases eq_or_ne idx (numCards - 1) with rfl | hne
    · rw [if_pos rfl]
      have : numCards - 1 + 1 = numCards := by omega
      rw [this, Nat.mod_self]
    · rw [if_neg hne, Nat.mod_eq_of_lt (by omega)]
  · intro idx hidx
    exact handlePrev_eq numCards idx h hidx

/-- Witness for C10 on a three-card deck and a concrete click sequence. -/
theorem flashcardDeck_index_invariant_witness :
    0 < 3 ∧
    (runDeck 3 [DeckOp.next, DeckOp.next, DeckOp.next, DeckOp.prev] < 3 ∧
     (∀ idx, idx < 3 →
       handleNext 3 idx = if idx = 3 - 1 then 0 else idx + 1) ∧
     (∀ idx, idx < 3 →
       handlePrev 3 idx = if idx = 0 then 3 - 1 else idx - 1)) :=
  ⟨by decide,
   flashcardDeck_index_invariant 3 (by decide)
     [DeckOp.next, DeckOp.next, DeckOp.next, DeckOp.prev]⟩

/-! ### WAV container (C9) -/

theorem size_setByte (buf : Array Nat) (i v : Nat) :
    (setByte buf i v).size = buf.size := by
  simp [setByte, Array.size_setD]

theorem size_setUint16LE (buf : Array Nat) (off v : Nat) :
    (setUint16LE buf off v).size = buf.size := by
  simp [setUint16LE, size_setByte]

theorem size_setUint32LE (buf : Array Nat) (off v : Nat) :
    (setUint32LE buf off v).size = buf.size := by
  simp [setUint32LE, size_setByte]

theorem size_setInt16LE (buf : Array Nat) (off : Nat) (v : Int) :
    (setInt16LE buf off v).size = buf.size := by
  simp [setInt16LE, size_setUint16LE]

theorem size_writeSamples (l : List Int) :
    ∀ (buf : Array Nat) (off : Nat),
      (writeSamples buf off l).size = buf.size := by
  induction l with
  | nil => intro buf off; rfl
  | cons s rest ih =>
    intro buf off
    rw [writeSamples, ih, size_setInt16LE]

theorem getByte_setByte (buf : Array Nat) (i j v : Nat) :
    getByte (setByte buf j v) i =
      if i = j then (if j < buf.size then v % 256 else getByte buf i)
      else getByte buf i := by
  unfold getByte setByte Array.setD Array.getD
  by_cases hj : j < buf.size
  · rw [dif_pos hj]
    by_cases hi : i < buf.size
    · rw [dif_pos (by simpa using hi), dif_pos hi]
      simp only [Array.get_eq_getElem]
      rw [Array.get_set buf ⟨j, hj⟩ i hi (v % 256)]
      by_cases hij : i = j
      · subst hij
        simp [hj]
      · simp [hij, Ne.symm hij]
    · rw [dif_neg (by simpa using hi), dif_neg hi]
      by_cases hij : i = j
      · subst hij
        exact absurd hj hi
      · simp [hij]
  · rw [dif_neg hj]
    by_cases hij : i = j
    · subst hij
      simp [hj]
    · simp [hij]

theorem getByte_oob (buf : Array Nat) (i : Nat) (h : buf.size ≤ i) :
    getByte buf i = 0 := by
  unfold getByte Array.getD
  rw [dif_neg (by omega)]

theorem getByte_writeSamples_lt (l : List Int) :
    ∀ (buf : Array Nat) (off i : Nat), i < off →
      getByte (writeSamples buf off l) i = getByte buf i := by
  induction l with
  | nil => intro buf off i h; rfl
  | cons s rest ih =>
    intro buf off i h
    rw [writeSamples, ih _ _ _ (by omega)]
    simp only [setInt16LE, setUint16LE]
    rw [getByte_setByte, if_neg (by omega), getByte_setByte,
      if_neg (by omega)]

theorem getByte_writeSamples_at (l : List Int) :
    ∀ (buf : Array Nat) (off j : Nat), j < l.length →
      off + 2 * l.length ≤ buf.size →
      getByte (writeSamples buf off l) (off + 2 * j) =
        ((l.getD j 0) % 65536).toNat % 256 ∧
      getByte (writeSamples buf off l) (off + 2 * j + 1) =
        ((l.getD j 0) % 65536).toNat / 256 % 256 := by
  induction l with
  | nil =>
    intro buf off j hj
    simp at hj
  | cons s rest ih =>
    intro buf off j hj hsize
    rw [List.length_cons] at hsize
    cases j with
    | zero =>
      rw [writeSamples]
      have hoff : off < buf.size := by omega
      have hoff1 : off + 1 < buf.size := by omega
      constructor
      · rw [show off + 2 * 0 = off by omega,
          getByte_writeSamples_lt rest _ _ _ (by omega)]
        simp only [setInt16LE, setUint16LE]
        rw [getByte_setByte, if_neg (by omega), getByte_setByte,
          if_pos rfl, if_pos hoff]
        simp only [List.getD_cons_zero]
      · rw [show off + 2 * 0 + 1 = off + 1 by omega,
          getByte_writeSamples_lt rest _ _ _ (by omega)]
        simp only [setInt16LE, setUint16LE]
        rw [getByte_setByte, if_pos rfl, size_setByte, if_pos hoff1]
        simp only [List.getD_cons_zero]
        omega
    | succ j' =>
      rw [writeSamples]
      have hs : (off + 2) + 2 * rest.length ≤ (setInt16LE buf off s).size := by
        rw [size_setInt16LE]
        omega
      have := ih (setInt16LE buf off s) (off + 2) j'
        (by simpa using hj) hs
      constructor
      · rw [show off + 2 * (j' + 1) = (off + 2) + 2 * j' by omega]
        rw [this.1]
        simp
      · rw [show off + 2 * (j' + 1) + 1 = (off + 2) + 2 * j' + 1 by omega]
        rw [this.2]
        simp

theorem setUint16LE_eq_applyWrites (buf : Array Nat) (off v : Nat) :
    setUint16LE buf off v =
      applyWrites buf [(off, v), (off + 1, v / 256 % 256)] := rfl

theorem setUint32LE_eq_applyWrites (buf : Array Nat) (off v : Nat) :
    setUint32LE buf off v =
      applyWrites buf [(off, v), (off + 1, v / 256 % 256),
        (off + 2, v / 65536 % 256), (off + 3, v / 16777216 % 256)] := rfl

theorem writeString_RIFF (buf : Array Nat) :
    writeString buf 0 "RIFF" =
      applyWrites buf [(0, 82), (1, 73), (2, 70), (3, 70)] := rfl

theorem writeString_WAVE (buf : Array Nat) :
    writeString buf 8 "WAVE" =
      applyWrites buf [(8, 87), (9, 65), (10, 86), (11, 69)] := rfl

theorem writeString_fmt (buf : Array Nat) :
    writeString buf 12 "fmt " =
      applyWrites buf [(12, 102), (13, 109), (14, 116), (15, 32)] := rfl

theorem writeString_data (buf : Array Nat) :
    writeString buf 36 "data" =
      applyWrites buf [(36, 100), (37, 97), (38, 116), (39, 97)] := rfl

theorem applyWrites_applyWrites (buf : Array Nat) (l1 l2 : List (Nat × Nat)) :
    applyWrites (applyWrites buf l1) l2 = applyWrites buf (l1 ++ l2) :=
  (List.foldl_append _ _ _ _).symm

theorem pcmToWav_eq_applyWrites (pcm : List Int) (r : Nat) :
    pcmToWav pcm r =
      writeSamples
        (applyWrites (Array.mkArray (44 + pcm.length * 2) 0)
          (headerWrites pcm.length r)) 44 pcm := by
  unfold pcmToWav
  dsimp only
  rw [writeString_RIFF, setUint32LE_eq_applyWrites, writeString_WAVE,
    writeString_fmt, setUint32LE_eq_applyWrites, setUint16LE_eq_applyWrites,
    setUint16LE_eq_applyWrites, setUint32LE_eq_applyWrites,
    setUint32LE_eq_applyWrites, setUint16LE_eq_applyWrites,
    setUint16LE_eq_applyWrites, writeString_data, setUint32LE_eq_applyWrites]
  rw [applyWrites_applyWrites, applyWrites_applyWrites,
    applyWrites_applyWrites, applyWrites_applyWrites,
    applyWrites_applyWrites, applyWrites_applyWrites,
    applyWrites_applyWrites, applyWrites_applyWrites,
    applyWrites_applyWrites, applyWrites_applyWrites,
    applyWrites_applyWrites, applyWrites_applyWrites]
  simp [headerWrites]

theorem size_applyWrites (ws : List (Nat × Nat)) :
    ∀ buf : Array Nat, (applyWrites buf ws).size = buf.size := by
  induction ws with
  | nil => intro buf; rfl
  | cons w rest ih =>
    intro buf
    show (applyWrites (setByte buf w.1 w.2) rest).size = buf.size
    rw [ih, size_setByte]

theorem getByte_applyWrites (ws : List (Nat × Nat)) :
    ∀ (buf : Array Nat) (i : Nat), (∀ w ∈ ws, w.1 < buf.size) →
      getByte (applyWrites buf ws) i =
        (match ws.reverse.find? (fun w => w.1 == i) with
         | some w => w.2 % 256
         | none => getByte buf i) := by
  induction ws with
  | nil => intro buf i h; rfl
  | cons w rest ih =>
    intro buf i h
    have hstep : applyWrites buf (w :: rest) =
        applyWrites (setByte buf w.1 w.2) rest := rfl
    rw [hstep, ih (setByte buf w.1 w.2) i
      (fun x hx => by rw [size_setByte]; exact h x (by simp [hx]))]
    rw [show (w :: rest).reverse = rest.reverse ++ [w] from by simp,
      List.find?_append]
    cases hf : rest.reverse.find? (fun p => p.1 == i) with
    | some p => simp [hf]
    | none =>
      simp only [hf, Option.none_or]
      rw [getByte_setByte]
      by_cases hwi : w.1 = i
      · subst hwi
        have hi : w.1 < buf.size := h w (by simp)
        rw [if_pos rfl, if_pos hi]
        simp [List.find?]
      · rw [if_neg (fun h' => hwi h'.symm)]
        simp [List.find?, beq_eq_false_iff_ne.mpr hwi]

set_option maxRecDepth 2000 in
/-- C9 amended: `pcmToWav` produces exactly `44 + 2*N` bytes; the RIFF
chunk-size field (offset 4) holds `36 + 2*N` and the data chunk-size field
(offset 40) holds `2*N`, each reduced mod 2^32 as 32-bit stores; the format
header declares PCM format 1 (offset 20), one channel (offset 22), 16 bits
per sample (offset 34), sample rate `r mod 2^32` (offset 24) and byte rate
`2*r mod 2^32` (offset 28); and each input sample is written little-endian
(two's complement, i.e. its value mod 2^16) in input order starting at byte
offset 44. -/
theorem pcmToWav_fields (pcm : List Int) (r : Nat) :
    (pcmToWav pcm r).size = 44 + 2 * pcm.length ∧
    readUint32LE (pcmToWav pcm r) 4 = (36 + 2 * pcm.length) % 4294967296 ∧
    readUint32LE (pcmToWav pcm r) 40 = (2 * pcm.length) % 4294967296 ∧
    readUint16LE (pcmToWav pcm r) 20 = 1 ∧
    readUint16LE (pcmToWav pcm r) 22 = 1 ∧
    readUint16LE (pcmToWav pcm r) 34 = 16 ∧
    readUint32LE (pcmToWav pcm r) 24 = r % 4294967296 ∧
    readUint32LE (pcmToWav pcm r) 28 = (2 * r) % 4294967296 ∧
    (∀ j : Nat,
      getByte (pcmToWav pcm r) (44 + 2 * j) =
        ((pcm.getD j 0) % 65536).toNat % 256 ∧
      getByte (pcmToWav pcm r) (44 + 2 * j + 1) =
        ((pcm.getD j 0) % 65536).toNat / 256 % 256) := by
  have hPW := pcmToWav_eq_applyWrites pcm r
  set B := applyWrites (Array.mkArray (44 + pcm.length * 2) 0)
    (headerWrites pcm.length r) with hBdef
  have hBsize : B.size = 44 + pcm.length * 2 := by
    rw [hBdef, size_applyWrites, Array.size_mkArray]
  have hall : ∀ w ∈ headerWrites pcm.length r, decide (w.1 < 44) = true :=
    List.all_eq_true.mp rfl
  have hwlt : ∀ w ∈ headerWrites pcm.length r,
      w.1 < (Array.mkArray (44 + pcm.length * 2) (0 : Nat)).size := by
    intro w hw
    rw [Array.size_mkArray]
    have := of_decide_eq_true (hall w hw)
    omega
  have h4 : getByte B 4 = (36 + pcm.length * 2) % 256 := by
    rw [hBdef, getByte_applyWrites _ _ _ hwlt]
    rfl
  have h5 : getByte B 5 = (36 + pcm.length * 2) / 256 % 256 % 256 := by
    rw [hBdef, getByte_applyWrites _ _ _ hwlt]
    rfl
  have h6 : getByte B 6 = (36 + pcm.length * 2) / 65536 % 256 % 256 := by
    rw [hBdef, getByte_applyWrites _ _ _ hwlt]
    rfl
  have h7 : getByte B 7 = (36 + pcm.length * 2) / 16777216 % 256 % 256 := by
    rw [hBdef, getByte_applyWrites _ _ _ hwlt]
    rfl
  have h20 : getByte B 20 = 1 % 256 := by
    rw [hBdef, getByte_applyWrites _ _ _ hwlt]
    rfl
  have h21 : getByte B 21 = 0 % 256 := by
    rw [hBdef, getByte_applyWrites _ _ _ hwlt]
    rfl
  have h22 : getByte B 22 = 1 % 256 := by
    rw [hBdef, getByte_applyWrites _ _ _ hwlt]
    rfl
  have h23 : getByte B 23 = 0 % 256 := by
    rw [hBdef, getByte_applyWrites _ _ _ hwlt]
    rfl
  have h24 : getByte B 24 = r % 256 := by
    rw [hBdef, getByte_applyWrites _ _ _ hwlt]
    rfl
  have h25 : getByte B 25 = r / 256 % 256 % 256 := by
    rw [hBdef, getByte_applyWrites _ _ _ hwlt]
    rfl
  have h26 : getByte B 26 = r / 65536 % 256 % 256 := by
    rw [hBdef, getByte_applyWrites _ _ _ hwlt]
    rfl
  have h27 : getByte B 27 = r / 16777216 % 256 % 256 := by
    rw [hBdef, getByte_applyWrites _ _ _ hwlt]
    rfl
  have h28 : getByte B 28 = r * 1 * 2 % 256 := by
    rw [hBdef, getByte_applyWrites _ _ _ hwlt]
    rfl
  have h29 : getByte B 29 = r * 1 * 2 / 256 % 256 % 256 := by
    rw [hBdef, getByte_applyWrites _ _ _ hwlt]
    rfl
  have h30 : getByte B 30 = r * 1 * 2 / 65536 % 256 % 256 := by
    rw [hBdef, getByte_applyWrites _ _ _ hwlt]
    rfl
  have h31 : getByte B 31 = r * 1 * 2 / 16777216 % 256 % 256 := by
    rw [hBdef, getByte_applyWrites _ _ _ hwlt]
    rfl
  have h34 : getByte B 34 = 16 % 256 := by
    rw [hBdef, getByte_applyWrites _ _ _ hwlt]
    rfl
  have h35 : getByte B 35 = 0 % 256 := by
    rw [hBdef, getByte_applyWrites _ _ _ hwlt]
    rfl
  have h40 : getByte B 40 = pcm.length * 2 % 256 := by
    rw [hBdef, getByte_applyWrites _ _ _ hwlt]
    rfl
  have h41 : getByte B 41 = pcm.length * 2 / 256 % 256 % 256 := by
    rw [hBdef, getByte_applyWrites _ _ _ hwlt]
    rfl
  have h42 : getByte B 42 = pcm.length * 2 / 65536 % 256 % 256 := by
    rw [hBdef, getByte_applyWrites _ _ _ hwlt]
    rfl
  have h43 : getByte B 43 = pcm.length * 2 / 16777216 % 256 % 256 := by
    rw [hBdef, getByte_applyWrites _ _ _ hwlt]
    rfl
  refine ⟨?_, ?_, ?_, ?_, ?_, ?_, ?_, ?_, ?_⟩
  · rw [hPW, size_writeSamples, hBsize]
    omega
  · rw [readUint32LE, hPW,
      getByte_writeSamples_lt pcm _ 44 4 (by omega),
      getByte_writeSamples_lt pcm _ 44 (4 + 1) (by omega),
      getByte_writeSamples_lt pcm _ 44 (4 + 2) (by omega),
      getByte_writeSamples_lt pcm _ 44 (4 + 3) (by omega)]
    rw [show (4 : Nat) + 1 = 5 from rfl, show (4 : Nat) + 2 = 6 from rfl,
      show (4 : Nat) + 3 = 7 from rfl, h4, h5, h6, h7]
    omega
  · rw [readUint32LE, hPW,
      getByte_writeSamples_lt pcm _ 44 40 (by omega),
      getByte_writeSamples_lt pcm _ 44 (40 + 1) (by omega),
      getByte_writeSamples_lt pcm _ 44 (40 + 2) (by omega),
      getByte_writeSamples_lt pcm _ 44 (40 + 3) (by omega)]
    rw [show (40 : Nat) + 1 = 41 from rfl, show (40 : Nat) + 2 = 42 from rfl,
      show (40 : Nat) + 3 = 43 from rfl, h40, h41, h42, h43]
    omega
  · rw [readUint16LE, hPW,
      getByte_writeSamples_lt pcm _ 44 20 (by omega),
      getByte_writeSamples_lt pcm _ 44 (20 + 1) (by omega)]
    rw [show (20 : Nat) + 1 = 21 from rfl, h20, h21]
  · rw [readUint16LE, hPW,
      getByte_writeSamples_lt pcm _ 44 22 (by omega),
      getByte_writeSamples_lt pcm _ 44 (22 + 1) (by omega)]
    rw [show (22 : Nat) + 1 = 23 from rfl, h22, h23]
  · rw [readUint16LE, hPW,
      getByte_writeSamples_lt pcm _ 44 34 (by omega),
      getByte_writeSamples_lt pcm _ 44 (34 + 1) (by omega)]
    rw [show (34 : Nat) + 1 = 35 from rfl, h34, h35]
  · rw [readUint32LE, hPW,
      getByte_writeSamples_lt pcm _ 44 24 (by omega),
      getByte_writeSamples_lt pcm _ 44 (24 + 1) (by omega),
      getByte_writeSamples_lt pcm _ 44 (24 + 2) (by omega),
      getByte_writeSamples_lt pcm _ 44 (24 + 3) (by omega)]
    rw [show (24 : Nat) + 1 = 25 from rfl, show (24 : Nat) + 2 = 26 from rfl,
      show (24 : Nat) + 3 = 27 from rfl, h24, h25, h26, h27]
    omega
  · rw [readUint32LE, hPW,
      getByte_writeSamples_lt pcm _ 44 28 (by omega),
      getByte_writeSamples_lt pcm _ 44 (28 + 1) (by omega),
      getByte_writeSamples_lt pcm _ 44 (28 + 2) (by omega),
      getByte_writeSamples_lt pcm _ 44 (28 + 3) (by omega)]
    rw [show (28 : Nat) + 1 = 29 from rfl, show (28 : Nat) + 2 = 30 from rfl,
      show (28 : Nat) + 3 = 31 from rfl, h28, h29, h30, h31]
    omega
  · intro j
    by_cases hj : j < pcm.length
    · have hs : 44 + 2 * pcm.length ≤ B.size := by rw [hBsize]; omega
      have := getByte_writeSamples_at pcm B 44 j hj hs
      rw [hPW]
      exact this
    · have hsz1 : (writeSamples B 44 pcm).size ≤ 44 + 2 * j := by
        rw [size_writeSamples, hBsize]
        omega
      have hsz2 : (writeSamples B 44 pcm).size ≤ 44 + 2 * j + 1 := by
        omega
      rw [hPW, getByte_oob _ _ hsz1, getByte_oob _ _ hsz2,
        List.getD_eq_default _ _ (by omega)]
      constructor <;> rfl

set_option maxRecDepth 10000 in
/-- C9 counterexample: the claim as stated says the format header declares
sample rate `r` for every `r`, but `setUint32` stores `r` mod 2^32: with no
samples and `r = 2^32` (reachable, since the rate is parsed from the
response MIME type) the stored sample-rate field reads back 0, not 2^32. -/
theorem pcmToWav_sampleRate_wraps :
    readUint32LE (pcmToWav [] 4294967296) 24 = 0 ∧
    readUint32LE (pcmToWav [] 4294967296) 24 ≠ 4294967296 := by
  constructor
  · decide
  · decide


end NeuroNote
